import Mathlib

/-!
Shallow embedding of the EPL player-statistics dashboard
(`dashboard_epl.py`) and proofs about its filtering and aggregation
pipeline.  Machine floats of the original are modelled by exact
rationals; pandas dataframes by a record of a column-name list and a
row list; dataframe masks by `List.filter`.
-/

/-- One row of the player table.  Fields are the columns the dashboard
reads by name (`Player Name`, `Club`, `Position`, `Minutes`, `Goals`,
`Assists`, `Shots`). -/
structure PlayerRecord where
  playerName : String
  club : String
  position : String
  minutes : Int
  goals : Int
  assists : Int
  shots : Int
deriving DecidableEq, Repr

/-- A dataframe: a column-name list (`df.columns`) plus the rows.
The typed fields of `PlayerRecord` model the named columns the code
accesses; `cols` keeps the full column set so that the empty frame
built by `pd.DataFrame(columns=df.columns)` (line 86) is representable. -/
structure DF where
  cols : List String
  rows : List PlayerRecord
deriving DecidableEq, Repr

/-- The sidebar selections: `selected_clubs` (multiselect list),
`selected_position` (a position name or the literal `"All"`), and
`selected_minutes_range` (inclusive pair from the slider). -/
structure FilterCriteria where
  clubs : List String
  position : String
  minutesRange : Int × Int
deriving DecidableEq, Repr

/-- Lines 82-86: `if selected_clubs: filtered_df = filtered_df[filtered_df['Club'].isin(selected_clubs)]
else: filtered_df = pd.DataFrame(columns=df.columns)`. -/
def clubStep (df : DF) (c : FilterCriteria) : DF :=
  if c.clubs.isEmpty then ⟨df.cols, []⟩
  else ⟨df.cols, df.rows.filter (fun r => c.clubs.contains r.club)⟩

/-- Lines 89-90: `if selected_position != 'All': filtered_df = filtered_df[filtered_df['Position'] == selected_position]`. -/
def positionStep (d : DF) (c : FilterCriteria) : DF :=
  if c.position ≠ "All" then ⟨d.cols, d.rows.filter (fun r => r.position == c.position)⟩
  else d

/-- Lines 94-97: the inclusive minutes-range mask
`(filtered_df['Minutes'] >= lo) & (filtered_df['Minutes'] <= hi)`. -/
def minutesStep (d : DF) (c : FilterCriteria) : DF :=
  ⟨d.cols, d.rows.filter (fun r =>
    decide (c.minutesRange.1 ≤ r.minutes) && decide (r.minutes ≤ c.minutesRange.2))⟩

/-- Lines 79-97: the full filter pipeline, including the line-93 guard
`if not filtered_df.empty:` that skips the minutes mask on an empty
intermediate frame. -/
def filtered_df (df : DF) (c : FilterCriteria) : DF :=
  if !(positionStep (clubStep df c) c).rows.isEmpty then
    minutesStep (positionStep (clubStep df c) c) c
  else positionStep (clubStep df c) c

/-- Comparison pipeline written from the spec's words: the same three
predicates with the minutes mask applied unconditionally (no emptiness
guard).  Used only to state that the line-93 guard is a pure
optimization. -/
def filtered_df_unguarded (df : DF) (c : FilterCriteria) : DF :=
  minutesStep (positionStep (clubStep df c) c) c

/-- Python's built-in `round`: round half to even, modelled on exact
rationals (binary floating-point representation error is outside the
model). -/
def pythonRound (q : ℚ) : ℤ :=
  if q - ⌊q⌋ < 1/2 then ⌊q⌋
  else if (1 : ℚ)/2 < q - ⌊q⌋ then ⌊q⌋ + 1
  else if ⌊q⌋ % 2 = 0 then ⌊q⌋ else ⌊q⌋ + 1

/-- Python `round(x, 2)`. -/
def round2 (q : ℚ) : ℚ := (pythonRound (q * 100) : ℚ) / 100

/-- Python `round(x, 0)`. -/
def round0 (q : ℚ) : ℚ := (pythonRound q : ℚ)

/-- The four KPI values of lines 102-111. -/
structure SummaryMetrics where
  count : Nat
  totalGoals : Int
  meanAssists : ℚ
  meanMinutes : ℚ
deriving DecidableEq, Repr

/-- Lines 102-111: `total_players = len(filtered_df)`,
`total_goals = int(filtered_df['Goals'].sum())`,
`avg_assists = round(filtered_df['Assists'].mean(), 2)`,
`avg_minutes = round(filtered_df['Minutes'].mean(), 0)` on a non-empty
frame, and the explicit all-zero branch on the empty frame.  Pandas
`mean` is the sum divided by the row count. -/
def summaryMetrics (rows : List PlayerRecord) : SummaryMetrics :=
  if rows.isEmpty then ⟨0, 0, 0, 0⟩
  else
    ⟨rows.length,
     (rows.map PlayerRecord.goals).sum,
     round2 (((rows.map PlayerRecord.assists).sum : ℚ) / (rows.length : ℚ)),
     round0 (((rows.map PlayerRecord.minutes).sum : ℚ) / (rows.length : ℚ))⟩

/-- Two sample rows used by witnesses. -/
def sampleRows : List PlayerRecord :=
  [⟨"A", "Arsenal", "FW", 900, 10, 2, 30⟩, ⟨"B", "Arsenal", "MF", 100, 1, 3, 4⟩]

variable {α : Type*}

/-- Descending order on position-tagged rows used by pandas
`nlargest(n, metric)` with the default `keep='first'`: larger metric
first, and at equal metrics the earlier original position first (the
stable tie-break). -/
def descRel (key : α → ℚ) (p q : Nat × α) : Prop :=
  key q.2 < key p.2 ∨ (key p.2 = key q.2 ∧ p.1 ≤ q.1)

instance (key : α → ℚ) : DecidableRel (descRel key) := fun p q =>
  inferInstanceAs (Decidable (key q.2 < key p.2 ∨ (key p.2 = key q.2 ∧ p.1 ≤ q.1)))

instance (key : α → ℚ) : IsTotal (Nat × α) (descRel key) := ⟨by
  intro p q
  rcases lt_trichotomy (key p.2) (key q.2) with h | h | h
  · exact Or.inr (Or.inl h)
  · rcases Nat.le_total p.1 q.1 with hn | hn
    · exact Or.inl (Or.inr ⟨h, hn⟩)
    · exact Or.inr (Or.inr ⟨h.symm, hn⟩)
  · exact Or.inl (Or.inl h)⟩

instance (key : α → ℚ) : IsTrans (Nat × α) (descRel key) := ⟨by
  intro p q r hpq hqr
  rcases hpq with h1 | ⟨e1, n1⟩
  · rcases hqr with h2 | ⟨e2, n2⟩
    · exact Or.inl (h2.trans h1)
    · exact Or.inl (lt_of_eq_of_lt e2.symm h1)
  · rcases hqr with h2 | ⟨e2, n2⟩
    · exact Or.inl (lt_of_lt_of_eq h2 e1.symm)
    · exact Or.inr ⟨e1.trans e2, n1.trans n2⟩⟩

/-- Ascending metric order used by `.sort_values(metric, ascending=True)`. -/
def ascRel (key : α → ℚ) (p q : Nat × α) : Prop := key p.2 ≤ key q.2

instance (key : α → ℚ) : DecidableRel (ascRel key) := fun p q =>
  inferInstanceAs (Decidable (key p.2 ≤ key q.2))

instance (key : α → ℚ) : IsTotal (Nat × α) (ascRel key) := ⟨fun p q => le_total _ _⟩

instance (key : α → ℚ) : IsTrans (Nat × α) (ascRel key) := ⟨fun _ _ _ h h' => h.trans h'⟩

/-- The view stably sorted by descending metric, each row tagged with
its original position (`List.enum` models row identity/order). -/
def sortDesc (key : α → ℚ) (xs : List α) : List (Nat × α) :=
  (xs.enum).insertionSort (descRel key)

/-- pandas `nlargest(n, metric)` with `keep='first'`: the n rows with
the largest metric, ties resolved in favour of earlier rows. -/
def nlargest (key : α → ℚ) (n : Nat) (xs : List α) : List (Nat × α) :=
  (sortDesc key xs).take n

/-- Lines 174-176: `top_10_players = filtered_df.nlargest(10, metric)`
followed by `top_10_players.sort_values(metric, ascending=True)` for
the horizontal bar chart. -/
def topN (key : α → ℚ) (n : Nat) (xs : List α) : List (Nat × α) :=
  (nlargest key n xs).insertionSort (ascRel key)

variable {K : Type*}

/-- Keys of a pandas `groupby` with its default `sort=True`: the
distinct key values of the view, in ascending key order (not in
first-encountered order). -/
def groupKeys [LinearOrder K] [DecidableEq K] (rows : List (K × Int)) : List K :=
  ((rows.map Prod.fst).dedup).insertionSort (· ≤ ·)

/-- Per-group sums `groupby(g)[v].sum()`: one `(key, sum)` pair per
distinct key, in ascending key order. -/
def groupbySum [LinearOrder K] [DecidableEq K] (rows : List (K × Int)) : List (K × Int) :=
  (groupKeys rows).map
    (fun k => (k, ((rows.filter (fun p => decide (p.1 = k))).map Prod.snd).sum))

/-- Order produced by `sort_values(ascending=False)` on the summed
series: sum descending; at equal sums the key order of the input
series (ascending keys) is kept.  pandas leaves the tie order of its
default quicksort unspecified; the model resolves ties the way a
stable sort of the key-ascending groupby output does. -/
def sumDescRel [LinearOrder K] (a b : K × Int) : Prop :=
  b.2 < a.2 ∨ (a.2 = b.2 ∧ a.1 ≤ b.1)

instance [LinearOrder K] : DecidableRel (sumDescRel (K := K)) := fun a b =>
  inferInstanceAs (Decidable (b.2 < a.2 ∨ (a.2 = b.2 ∧ a.1 ≤ b.1)))

instance [LinearOrder K] : IsTotal (K × Int) sumDescRel := ⟨by
  intro p q
  rcases lt_trichotomy p.2 q.2 with h | h | h
  · exact Or.inr (Or.inl h)
  · rcases le_total p.1 q.1 with hn | hn
    · exact Or.inl (Or.inr ⟨h, hn⟩)
    · exact Or.inr (Or.inr ⟨h.symm, hn⟩)
  · exact Or.inl (Or.inl h)⟩

instance [LinearOrder K] : IsTrans (K × Int) sumDescRel := ⟨by
  intro p q r hpq hqr
  rcases hpq with h1 | ⟨e1, n1⟩
  · rcases hqr with h2 | ⟨e2, n2⟩
    · exact Or.inl (h2.trans h1)
    · exact Or.inl (lt_of_eq_of_lt e2.symm h1)
  · rcases hqr with h2 | ⟨e2, n2⟩
    · exact Or.inl (lt_of_lt_of_eq h2 e1.symm)
    · exact Or.inr ⟨e1.trans e2, n1.trans n2⟩⟩

/-- Line 135: `goals_by_club = filtered_df.groupby('Club')['Goals'].sum().sort_values(ascending=False)`. -/
def groupSum [LinearOrder K] [DecidableEq K] (rows : List (K × Int)) : List (K × Int) :=
  (groupbySum rows).insertionSort sumDescRel

/-- A raw CSV column as pandas holds it after `read_csv`: either an
object (text) column with possibly-missing cells, or an already
numeric column (for which the line-30 dtype test skips the loop body). -/
inductive Column where
  | text (cells : List (Option String))
  | num (cells : List (Option ℚ))
deriving DecidableEq, Repr

/-- One cell of `df[col].str.contains('%', na=False)`: missing cells
count as `False`; `%` carries no special regex meaning, so the test is
literal containment. -/
def cellHasPercent (cell : Option String) : Bool :=
  match cell with
  | none => false
  | some s => s.data.contains '%'

/-- Python `str.replace('%', '')`: remove every `%` character. -/
def stripPercent (s : String) : String := ⟨s.data.filter (fun c => !(c == '%'))⟩

/-- Numeric value of a decimal digit character (`'0'` is code 48). -/
def digitVal (c : Char) : Option Nat :=
  if c.isDigit then some (c.toNat - 48) else none

/-- Parse a non-empty run of decimal digits as a natural number. -/
def parseNatDigits (cs : List Char) : Option Nat :=
  if cs.isEmpty then none
  else cs.foldl (fun acc c =>
    match acc, digitVal c with
    | some n, some d => some (10 * n + d)
    | _, _ => none) (some 0)

/-- Split a character list at `.`. -/
def splitDot : List Char → List (List Char)
  | [] => [[]]
  | c :: rest =>
    if c = '.' then [] :: splitDot rest
    else
      match splitDot rest with
      | [] => [[c]]
      | g :: gs => (c :: g) :: gs

/-- Python `float()` on the unsigned decimal literals that occur in the
data (`"42"` or `"42.5"` shapes); any other shape fails, modelling the
uncaught `ValueError` that `astype(float)` raises on it. -/
def parseFloat? (s : String) : Option ℚ :=
  match splitDot s.data with
  | [a] => (parseNatDigits a).map (fun n => (n : ℚ))
  | [a, b] =>
    match parseNatDigits a, parseNatDigits b with
    | some n, some m => some ((n : ℚ) + (m : ℚ) / ((10 : ℚ) ^ b.length))
    | _, _ => none
  | _ => none

/-- One cell under line 31,
`df[col].str.replace('%', '', regex=False).astype(float) / 100.0`:
a missing cell stays missing (NaN passes through `astype(float)` and
the division); a present cell must parse as a float after stripping
`%`, else the whole conversion raises (outer `none`). -/
def convertCell (cell : Option String) : Option (Option ℚ) :=
  match cell with
  | none => some none
  | some s => (parseFloat? (stripPercent s)).map (fun q => some (q / 100))

/-- Lines 29-31 for one column: an object-dtype column is converted
when `df[col].str.contains('%', na=False).any()` holds — that is, when
at least one non-missing cell contains `%`; otherwise it is left
untouched.  A numeric column is skipped by the dtype test.  The outer
`Option` is the uncaught exception of `astype(float)` on an
unparseable cell. -/
def convertColumn (c : Column) : Option Column :=
  match c with
  | .num cs => some (.num cs)
  | .text cs =>
    if cs.any cellHasPercent then (cs.mapM convertCell).map Column.num
    else some (.text cs)

/-- Characters of `pat` occur contiguously at the head of `s`. -/
def chStarts : List Char → List Char → Bool
  | [], _ => true
  | _ :: _, [] => false
  | p :: ps, c :: cs => p == c && chStarts ps cs

/-- Python's substring test `pat in s` on character lists. -/
def chOccurs (pat : List Char) : List Char → Bool
  | [] => chStarts pat []
  | c :: cs => chStarts pat (c :: cs) || chOccurs pat cs

/-- Python's substring test `pat in s` for strings. -/
def strContains (pat s : String) : Bool := chOccurs pat.data s.data

/-- Line 164: the hand-maintained exclusion list
`metrics_to_exclude`. -/
def metrics_to_exclude : List String :=
  ["Big Chances Missed", "Hit Woodwork", "Offsides", "Goals Conceded",
   "Own Goals", "Yellow Cards", "Red Cards", "Penalties Saved"]

/-- Line 165: `metrics_to_rank = [col for col in numeric_cols if col
not in metrics_to_exclude and 'Ended' not in col and 'xGoT' not in
col]` — a function of the schema's numeric column list only, never of
the data values. -/
def metrics_to_rank (numeric_cols : List String) : List String :=
  numeric_cols.filter (fun col =>
    !(metrics_to_exclude.contains col)
      && !(strContains "Ended" col) && !(strContains "xGoT" col))

/-- What one render pass exposes downstream of the Loader: the
filtered frame and the summary metrics computed from it (both total
functions). -/
structure RenderOut where
  view : DF
  metrics : SummaryMetrics
deriving DecidableEq, Repr

/-- Outcome of one script run: halted at `st.stop()` (line 41) or a
rendered dashboard. -/
inductive SessionOutcome where
  | halted
  | rendered (out : RenderOut)
deriving DecidableEq, Repr

/-- Lines 26-35: `load_data` reads and cleans the CSV inside
`try/except FileNotFoundError`, reporting via `st.error` and returning
`None` exactly when the path does not resolve to a readable file.  The
read-and-clean step is an oracle `fs` mapping a path to the cleaned
frame when the file is readable. -/
def load_data (fs : String → Option DF) (file_path : String) : Option DF := fs file_path

/-- Lines 38-41 plus the rest of the script: `df = load_data(path)`;
`if df is None: st.stop()` halts the session cleanly; otherwise the
downstream stages (filter engine, aggregator), which are total
functions, always produce a rendered dashboard. -/
def runSession (fs : String → Option DF) (path : String) (c : FilterCriteria) :
    SessionOutcome :=
  match load_data fs path with
  | none => SessionOutcome.halted
  | some df =>
    SessionOutcome.rendered ⟨filtered_df df c, summaryMetrics (filtered_df df c).rows⟩

/-- A filesystem with no readable files. -/
def emptyFS : String → Option DF := fun _ => none

/-- A filesystem in which every path reads as one fixed small frame. -/
def constFS : String → Option DF := fun _ => some ⟨["Club"], sampleRows⟩

theorem clubStep_cols (df : DF) (c : FilterCriteria) : (clubStep df c).cols = df.cols := by
  unfold clubStep; split <;> rfl

theorem positionStep_cols (d : DF) (c : FilterCriteria) : (positionStep d c).cols = d.cols := by
  unfold positionStep; split <;> rfl

theorem filtered_df_cols (df : DF) (c : FilterCriteria) :
    (filtered_df df c).cols = df.cols := by
  unfold filtered_df
  split
  · simp [minutesStep, positionStep_cols, clubStep_cols]
  · simp [positionStep_cols, clubStep_cols]

theorem clubStep_rows_sublist (df : DF) (c : FilterCriteria) :
    (clubStep df c).rows.Sublist df.rows := by
  unfold clubStep
  split
  · exact List.nil_sublist _
  · exact List.filter_sublist _

theorem positionStep_rows_sublist (d : DF) (c : FilterCriteria) :
    (positionStep d c).rows.Sublist d.rows := by
  unfold positionStep
  split
  · exact List.filter_sublist _
  · exact List.Sublist.refl _

theorem filtered_df_rows_sublist (df : DF) (c : FilterCriteria) :
    (filtered_df df c).rows.Sublist df.rows := by
  unfold filtered_df
  have h1 := clubStep_rows_sublist df c
  have h2 := positionStep_rows_sublist (clubStep df c) c
  split
  · exact ((List.filter_sublist _).trans h2).trans h1
  · exact h2.trans h1

/-- C2: with an empty club selection the pipeline returns the empty row
sequence whatever the position and minutes selections are, and the
result still carries the source frame's column set (it is a frame, not
null): lines 84-86 build `pd.DataFrame(columns=df.columns)`, the
position mask of an empty frame is empty, and line 93 skips the minutes
mask. -/
theorem filtered_df_empty_clubs (df : DF) (c : FilterCriteria) (h : c.clubs = []) :
    (filtered_df df c).rows = [] ∧ (filtered_df df c).cols = df.cols := by
  refine ⟨?_, filtered_df_cols df c⟩
  unfold filtered_df positionStep clubStep
  simp [h]

/-- Witness for `filtered_df_empty_clubs` at a concrete frame and
criteria. -/
theorem filtered_df_empty_clubs_witness :
    (filtered_df ⟨["Club"], [⟨"A", "Arsenal", "FW", 900, 10, 2, 30⟩]⟩
        ⟨[], "FW", (0, 3000)⟩).rows = [] ∧
      (filtered_df ⟨["Club"], [⟨"A", "Arsenal", "FW", 900, 10, 2, 30⟩]⟩
        ⟨[], "FW", (0, 3000)⟩).cols = ["Club"] :=
  filtered_df_empty_clubs ⟨["Club"], [⟨"A", "Arsenal", "FW", 900, 10, 2, 30⟩]⟩
    ⟨[], "FW", (0, 3000)⟩ rfl

/-- C3: the guarded pipeline (line-93 emptiness check before the minutes
mask) computes exactly the same frame as the pipeline that applies the
minutes mask unconditionally — the guard is an optimization with no
semantic effect, because filtering an empty row list is a no-op. -/
theorem filtered_df_guard_eq_unguarded (df : DF) (c : FilterCriteria) :
    filtered_df df c = filtered_df_unguarded df c := by
  unfold filtered_df filtered_df_unguarded
  cases hd : positionStep (clubStep df c) c with
  | mk cols rows =>
    cases rows with
    | nil => simp [minutesStep]
    | cons a as => simp [minutesStep]

/-- C8: filtering never fabricates, duplicates, or modifies a row:
every row occurs in the result at most as often as in the source frame
(each step is a mask or the empty frame).  The embedding is pure, so
the source frame itself is untouched by construction. -/
theorem filtered_df_no_fabrication (df : DF) (c : FilterCriteria) (r : PlayerRecord) :
    ((filtered_df df c).rows.count r) ≤ df.rows.count r :=
  (filtered_df_rows_sublist df c).count_le r

/-- C10: the filter pipeline preserves the source frame's relative row
order: the result is a subsequence (order-preserving selection) of the
source rows, because every step is a boolean mask applied in place. -/
theorem filtered_df_preserves_order (df : DF) (c : FilterCriteria) :
    (filtered_df df c).rows.Sublist df.rows :=
  filtered_df_rows_sublist df c

/-- C4: `summaryMetrics` is total; on a non-empty view the count is the
row cardinality, the goal total is the integer sum of the goals field,
and the two means are the arithmetic means of the assists and minutes
fields rounded to 2 and 0 decimal places; on the empty view all four
values are zero (the explicit lines 107-111 branch — never NaN, never
an error). -/
theorem summaryMetrics_spec (rows : List PlayerRecord) :
    (rows ≠ [] →
      (summaryMetrics rows).count = rows.length ∧
      (summaryMetrics rows).totalGoals = (rows.map PlayerRecord.goals).sum ∧
      (summaryMetrics rows).meanAssists =
        round2 ((rows.map (fun r => (r.assists : ℚ))).sum / (rows.length : ℚ)) ∧
      (summaryMetrics rows).meanMinutes =
        round0 ((rows.map (fun r => (r.minutes : ℚ))).sum / (rows.length : ℚ))) ∧
    summaryMetrics [] = ⟨0, 0, 0, 0⟩ := by
  refine ⟨fun h => ?_, rfl⟩
  have hne : rows.isEmpty = false := by
    cases rows with
    | nil => exact absurd rfl h
    | cons a as => rfl
  simp only [summaryMetrics, hne, Bool.false_eq_true, if_false,
    Int.cast_list_sum, List.map_map, Function.comp_def]
  simp

/-- Witness for `summaryMetrics_spec` at a concrete two-row view. -/
theorem summaryMetrics_spec_witness :
    (summaryMetrics sampleRows).count = sampleRows.length ∧
      (summaryMetrics sampleRows).totalGoals = (sampleRows.map PlayerRecord.goals).sum ∧
      (summaryMetrics sampleRows).meanAssists =
        round2 ((sampleRows.map (fun r => (r.assists : ℚ))).sum / (sampleRows.length : ℚ)) ∧
      (summaryMetrics sampleRows).meanMinutes =
        round0 ((sampleRows.map (fun r => (r.minutes : ℚ))).sum / (sampleRows.length : ℚ)) :=
  (summaryMetrics_spec sampleRows).1 (by decide)

theorem sortDesc_perm (key : α → ℚ) (xs : List α) : (sortDesc key xs).Perm xs.enum :=
  List.perm_insertionSort _ _

theorem sortDesc_sorted (key : α → ℚ) (xs : List α) :
    (sortDesc key xs).Pairwise (descRel key) :=
  List.sorted_insertionSort _ _

theorem sortDesc_fst_ne (key : α → ℚ) (xs : List α) :
    (sortDesc key xs).Pairwise (fun p q => p.1 ≠ q.1) := by
  have h : ((xs.enum).map Prod.fst).Pairwise (fun a b => a ≠ b) :=
    List.nodup_enum_map_fst xs
  have h' : (xs.enum).Pairwise (fun p q : Nat × α => p.1 ≠ q.1) := List.pairwise_map.mp h
  exact ((sortDesc_perm key xs).pairwise_iff (fun hxy => Ne.symm hxy)).mpr h'

theorem sortDesc_cross (key : α → ℚ) (n : Nat) (xs : List α) :
    ∀ p ∈ (sortDesc key xs).take n, ∀ q ∈ (sortDesc key xs).drop n,
      descRel key p q ∧ p.1 ≠ q.1 := by
  intro p hp q hq
  have h1 : ((sortDesc key xs).take n ++ (sortDesc key xs).drop n).Pairwise (descRel key) := by
    rw [List.take_append_drop]; exact sortDesc_sorted key xs
  have h2 : ((sortDesc key xs).take n ++ (sortDesc key xs).drop n).Pairwise
      (fun p q : Nat × α => p.1 ≠ q.1) := by
    rw [List.take_append_drop]; exact sortDesc_fst_ne key xs
  exact ⟨(List.pairwise_append.mp h1).2.2 p hp q hq,
         (List.pairwise_append.mp h2).2.2 p hp q hq⟩

theorem topN_perm_take (key : α → ℚ) (n : Nat) (xs : List α) :
    (topN key n xs).Perm ((sortDesc key xs).take n) :=
  List.perm_insertionSort _ _

/-- C5: `topN` returns exactly `min n |view|` rows (so at most n, and
all rows when fewer than n exist); every returned row is a row of the
view; the output is sorted ascending by the metric; every returned
row's metric is ≥ every non-returned row's metric; and at a metric tie
between a returned and a non-returned row, the returned row is the one
earlier in the original order (pandas `keep='first'` stability).  Rows
are tagged with their original position, so row identity is by
position. -/
theorem topN_spec (key : α → ℚ) (n : Nat) (xs : List α) :
    (topN key n xs).length = min n xs.length ∧
    (∀ p ∈ topN key n xs, p ∈ xs.enum) ∧
    (topN key n xs).Pairwise (fun p q => key p.2 ≤ key q.2) ∧
    (∀ p ∈ topN key n xs, ∀ q ∈ xs.enum, q ∉ topN key n xs →
      key q.2 ≤ key p.2 ∧ (key q.2 = key p.2 → p.1 < q.1)) ∧
    (xs.length ≤ n → (topN key n xs).Perm xs.enum) := by
  have hmem_take : ∀ p, p ∈ topN key n xs ↔ p ∈ (sortDesc key xs).take n := by
    intro p
    unfold topN nlargest
    exact List.mem_insertionSort _
  have hmem_enum : ∀ p, p ∈ topN key n xs → p ∈ xs.enum := by
    intro p hp
    have := (List.take_sublist n (sortDesc key xs)).mem ((hmem_take p).mp hp)
    exact (sortDesc_perm key xs).mem_iff.mp this
  refine ⟨?_, hmem_enum, ?_, ?_, ?_⟩
  · unfold topN nlargest
    rw [List.length_insertionSort, List.length_take, (sortDesc_perm key xs).length_eq,
      List.enum_length]
  · exact List.sorted_insertionSort (ascRel key) _
  · intro p hp q hq hqn
    have hqs : q ∈ sortDesc key xs := (sortDesc_perm key xs).mem_iff.mpr hq
    have hsplit : q ∈ (sortDesc key xs).take n ++ (sortDesc key xs).drop n := by
      rw [List.take_append_drop]; exact hqs
    have hqdrop : q ∈ (sortDesc key xs).drop n := by
      rcases List.mem_append.mp hsplit with h | h
      · exact absurd ((hmem_take q).mpr h) hqn
      · exact h
    obtain ⟨hrel, hne⟩ := sortDesc_cross key n xs p ((hmem_take p).mp hp) q hqdrop
    constructor
    · rcases hrel with h | ⟨e, _⟩
      · exact le_of_lt h
      · exact le_of_eq e.symm
    · intro heq
      rcases hrel with h | ⟨_, hle⟩
      · rw [heq] at h; exact absurd h (lt_irrefl _)
      · exact lt_of_le_of_ne hle hne
  · intro hlen
    have hall : (sortDesc key xs).take n = sortDesc key xs := by
      apply List.take_of_length_le
      rw [(sortDesc_perm key xs).length_eq, List.enum_length]
      exact hlen
    exact (topN_perm_take key n xs).trans (by rw [hall]; exact sortDesc_perm key xs)

/-- Witness for `topN_spec`: on the view `[1, 3, 2, 3]` with the
identity metric and n = 1, the single selected row is the 3 at position
1 (the earlier of the two tied 3s), and the tie against the non-returned
3 at position 3 is broken by position. -/
theorem topN_spec_witness :
    (topN (id : ℚ → ℚ) 1 [1, 3, 2, 3]).length = min 1 ([1, 3, 2, 3] : List ℚ).length ∧
      ((1, (3 : ℚ)) ∈ topN (id : ℚ → ℚ) 1 [1, 3, 2, 3]) ∧
      ((3 : ℚ) ≤ 3 ∧ ((3 : ℚ) = 3 → 1 < 3)) := by
  have h := topN_spec (id : ℚ → ℚ) 1 [1, 3, 2, 3]
  refine ⟨h.1, by decide, ?_⟩
  exact h.2.2.2.1 (1, 3) (by decide) (3, 3) (by decide) (by decide)

theorem sum_map_zero_int (ks : List K) : (ks.map (fun _ => (0 : Int))).sum = 0 := by
  induction ks with
  | nil => rfl
  | cons k ks ih => simpa using ih

theorem sum_ite_zero_of_not_mem [DecidableEq K] (a : K) (v : Int) (ks : List K)
    (h : a ∉ ks) : (ks.map (fun k => if a = k then v else 0)).sum = 0 := by
  induction ks with
  | nil => rfl
  | cons k ks ih =>
    have h1 : ¬(a = k) := fun e => h (by rw [e]; exact List.mem_cons_self k ks)
    have h2 : a ∉ ks := fun hm => h (List.mem_cons_of_mem k hm)
    simp [h1, ih h2]

theorem sum_ite_of_mem [DecidableEq K] (a : K) (v : Int) (ks : List K)
    (hnd : ks.Nodup) (hmem : a ∈ ks) :
    (ks.map (fun k => if a = k then v else 0)).sum = v := by
  induction ks with
  | nil => cases hmem
  | cons k ks ih =>
    rcases List.mem_cons.mp hmem with h | h
    · subst h
      have hnot : a ∉ ks := (List.nodup_cons.mp hnd).1
      simp [sum_ite_zero_of_not_mem a v ks hnot]
    · have hne : ¬(a = k) := fun e => (List.nodup_cons.mp hnd).1 (e ▸ h)
      simp [hne, ih (List.nodup_cons.mp hnd).2 h]

theorem fiber_sum [DecidableEq K] (rows : List (K × Int)) (ks : List K)
    (hnd : ks.Nodup) (hcov : ∀ p ∈ rows, p.1 ∈ ks) :
    (ks.map (fun k => ((rows.filter (fun p => decide (p.1 = k))).map Prod.snd).sum)).sum
      = (rows.map Prod.snd).sum := by
  induction rows with
  | nil => simp [sum_map_zero_int]
  | cons p rows ih =>
    have hcov' : ∀ q ∈ rows, q.1 ∈ ks := fun q hq => hcov q (List.mem_cons_of_mem p hq)
    have hmem : p.1 ∈ ks := hcov p (List.mem_cons_self p rows)
    have hsplit : ∀ k : K,
        (((p :: rows).filter (fun q => decide (q.1 = k))).map Prod.snd).sum
          = (if p.1 = k then p.2 else 0)
            + ((rows.filter (fun q => decide (q.1 = k))).map Prod.snd).sum := by
      intro k
      by_cases h : p.1 = k
      · simp [List.filter_cons, h]
      · simp [List.filter_cons, h]
    simp only [hsplit]
    rw [List.sum_map_add, sum_ite_of_mem p.1 p.2 ks hnd hmem, ih hcov']
    simp

theorem groupSum_perm [LinearOrder K] [DecidableEq K] (rows : List (K × Int)) :
    (groupSum rows).Perm (groupbySum rows) := List.perm_insertionSort _ _

theorem groupbySum_map_fst [LinearOrder K] [DecidableEq K] (rows : List (K × Int)) :
    (groupbySum rows).map Prod.fst = groupKeys rows := by
  unfold groupbySum
  rw [List.map_map]
  simp [Function.comp_def]

theorem groupKeys_nodup [LinearOrder K] [DecidableEq K] (rows : List (K × Int)) : (groupKeys rows).Nodup :=
  ((List.perm_insertionSort _ _).nodup_iff).mpr (List.nodup_dedup _)

theorem groupKeys_perm_dedup [LinearOrder K] [DecidableEq K] (rows : List (K × Int)) :
    (groupKeys rows).Perm (rows.map Prod.fst).dedup := List.perm_insertionSort _ _

theorem groupSum_fst_ne [LinearOrder K] [DecidableEq K] (rows : List (K × Int)) :
    (groupSum rows).Pairwise (fun a b => a.1 ≠ b.1) := by
  have h1 : ((groupbySum rows).map Prod.fst).Nodup := by
    rw [groupbySum_map_fst]; exact groupKeys_nodup rows
  have h2 : (groupbySum rows).Pairwise (fun a b : K × Int => a.1 ≠ b.1) :=
    List.pairwise_map.mp h1
  exact ((groupSum_perm rows).pairwise_iff (fun h => Ne.symm h)).mpr h2

/-- C6 (amended): `groupSum` returns one `(key, sum)` pair per distinct
group key (no key repeats; the key multiset is exactly the distinct
keys of the view); each pair's sum is the sum of the value field over
that key's rows; the pairs are sorted by sum descending; a tie between
sums is broken by ascending group-key order (the order in which the
key-sorting `groupby` emits the groups), not by first-encountered
order; and the group sums add up to the whole view's sum. -/
theorem groupSum_spec [LinearOrder K] [DecidableEq K] (rows : List (K × Int)) :
    ((groupSum rows).map Prod.fst).Perm (rows.map Prod.fst).dedup ∧
    (∀ p ∈ groupSum rows,
      p.2 = ((rows.filter (fun q => decide (q.1 = p.1))).map Prod.snd).sum) ∧
    (groupSum rows).Pairwise (fun a b => b.2 ≤ a.2) ∧
    (groupSum rows).Pairwise (fun a b => a.2 = b.2 → a.1 < b.1) ∧
    ((groupSum rows).map Prod.snd).sum = (rows.map Prod.snd).sum := by
  have hsorted : (groupSum rows).Pairwise (sumDescRel (K := K)) :=
    List.sorted_insertionSort sumDescRel _
  refine ⟨?_, ?_, ?_, ?_, ?_⟩
  · exact ((groupSum_perm rows).map Prod.fst).trans
      (by rw [groupbySum_map_fst]; exact groupKeys_perm_dedup rows)
  · intro p hp
    have hp' : p ∈ groupbySum rows := (List.mem_insertionSort _).mp hp
    rcases List.mem_map.mp hp' with ⟨k, _, rfl⟩
    rfl
  · exact hsorted.imp (fun h => by
      rcases h with h | ⟨e, _⟩
      · exact le_of_lt h
      · exact le_of_eq e.symm)
  · refine (hsorted.and (groupSum_fst_ne rows)).imp ?_
    rintro a b ⟨hrel, hne⟩ heq
    rcases hrel with h | ⟨_, hle⟩
    · rw [heq] at h; exact absurd h (lt_irrefl _)
    · exact lt_of_le_of_ne hle hne
  · have h1 : ((groupSum rows).map Prod.snd).sum = ((groupbySum rows).map Prod.snd).sum :=
      ((groupSum_perm rows).map Prod.snd).sum_eq
    have h2 : (groupbySum rows).map Prod.snd = (groupKeys rows).map
        (fun k => ((rows.filter (fun q => decide (q.1 = k))).map Prod.snd).sum) := by
      unfold groupbySum
      rw [List.map_map]
      rfl
    rw [h1, h2]
    refine fiber_sum rows (groupKeys rows) (groupKeys_nodup rows) ?_
    intro p hp
    have : p.1 ∈ (rows.map Prod.fst).dedup :=
      List.mem_dedup.mpr (List.mem_map_of_mem Prod.fst hp)
    exact (groupKeys_perm_dedup rows).mem_iff.mpr this

/-- C6 counterexample to the claim as stated: in the view
`[("b", 5), ("a", 5)]` both groups have sum 5 and the first-encountered
key order is `b` before `a`, but the code (whose `groupby` sorts the
keys before the sum sort) returns `a` before `b` — a sum tie is not
broken by first-encountered group-key order. -/
theorem groupSum_first_encounter_counterexample :
    groupSum [(('b' : Char), (5 : Int)), ('a', 5)] = [('a', 5), ('b', 5)] ∧
      groupSum [(('b' : Char), (5 : Int)), ('a', 5)] ≠ [('b', 5), ('a', 5)] := by
  constructor
  · decide
  · decide

/-- Witness for `groupSum_spec` at a concrete three-row view with two
clubs. -/
theorem groupSum_spec_witness :
    ((groupSum [(('b' : Char), (3 : Int)), ('a', 5), ('b', 4)]).map Prod.snd).sum
        = ([(('b' : Char), (3 : Int)), ('a', 5), ('b', 4)].map Prod.snd).sum ∧
      (('b' : Char), (7 : Int)).2
        = (([(('b' : Char), (3 : Int)), ('a', 5), ('b', 4)].filter
            (fun q => decide (q.1 = (('b' : Char), (7 : Int)).1))).map Prod.snd).sum := by
  have h := groupSum_spec [(('b' : Char), (3 : Int)), ('a', 5), ('b', 4)]
  exact ⟨h.2.2.2.2, h.2.1 ('b', 7) (by decide)⟩

/-- C1 counterexample to the claim as stated: the mixed column
`["42.5%", "0.3"]` has a cell without `%`, yet line 30's `.any()` test
fires and the column is converted entirely (`0.3` also being divided
by 100, giving `0.003`) instead of being left as text. -/
theorem convertColumn_mixed_counterexample :
    convertColumn (.text [some "42.5%", some "0.3"])
        = some (.num [some (17/40), some (3/1000)]) ∧
      cellHasPercent (some "0.3") = false := by
  constructor
  · have h1 : convertColumn (.text [some "42.5%", some "0.3"])
        = some (.num [some (((42 : ℚ) + 5 / 10 ^ 1) / 100),
                      some (((0 : ℚ) + 3 / 10 ^ 1) / 100)]) := rfl
    rw [h1]
    norm_num
  · decide

/-- C1 (amended): a text column is converted (every cell stripped of
`%`, parsed as a float and divided by 100, missing cells passing
through) exactly when at least one non-missing cell contains `%` and
every present cell parses; with no `%` anywhere the column is left as
text, unconverted.  In particular a mixed column is converted rather
than left as text. -/
theorem convertColumn_spec (cs : List (Option String)) :
    (cs.any cellHasPercent = false → convertColumn (.text cs) = some (.text cs)) ∧
    (∀ qs, convertColumn (.text cs) = some (Column.num qs) ↔
      (cs.any cellHasPercent = true ∧ cs.mapM convertCell = some qs)) := by
  have hceq : convertColumn (.text cs)
      = if cs.any cellHasPercent then (cs.mapM convertCell).map Column.num
        else some (.text cs) := rfl
  by_cases h : cs.any cellHasPercent
  · rw [hceq, if_pos h]
    refine ⟨fun hf => ?_, fun qs => ?_⟩
    · rw [hf] at h
      exact Bool.noConfusion h
    · cases hm : cs.mapM convertCell with
      | none =>
        simp only [Option.map_none']
        exact ⟨fun he => Option.noConfusion he, fun x => Option.noConfusion x.2⟩
      | some l =>
        simp only [Option.map_some', Option.some.injEq, Column.num.injEq]
        exact ⟨fun he => ⟨h, by rw [he]⟩, fun x => x.2⟩
  · have hf : cs.any cellHasPercent = false := Bool.eq_false_iff.mpr h
    rw [hceq, if_neg h]
    refine ⟨fun _ => rfl, fun qs => ?_⟩
    constructor
    · intro he
      simp at he
    · rintro ⟨ht, _⟩
      rw [hf] at ht
      exact Bool.noConfusion ht

/-- Witness for `convertColumn_spec`: the `%`-free column
`["12.5", missing]` is left as text, and the all-`%` column
`["42.5%", "70%"]` converts to `[0.425, 0.7]`. -/
theorem convertColumn_spec_witness :
    convertColumn (.text [some "12.5", none]) = some (.text [some "12.5", none]) ∧
      convertColumn (.text [some "42.5%", some "70%"])
        = some (Column.num [some (17/40), some (7/10)]) := by
  refine ⟨(convertColumn_spec [some "12.5", none]).1 (by decide), ?_⟩
  have h := ((convertColumn_spec [some "42.5%", some "70%"]).2
      [some (((42 : ℚ) + 5 / 10 ^ 1) / 100), some ((70 : ℚ) / 100)]).mpr ⟨by decide, rfl⟩
  rw [h]
  norm_num

/-- C7: a column name is rankable exactly when it is a numeric column
that is not in the static exclusion list and contains neither of the
excluded name patterns `Ended` and `xGoT`; consequently no member of
the exclusion list is ever rankable, whatever the (numeric) schema.
`metrics_to_rank` consumes only the schema's numeric column list, so
the result is independent of the data values by construction. -/
theorem metrics_to_rank_spec (numeric_cols : List String) :
    (∀ col, col ∈ metrics_to_rank numeric_cols ↔
      (col ∈ numeric_cols ∧ col ∉ metrics_to_exclude ∧
        strContains "Ended" col = false ∧ strContains "xGoT" col = false)) ∧
    (∀ col ∈ metrics_to_exclude, col ∉ metrics_to_rank numeric_cols) := by
  have hmem : ∀ col, col ∈ metrics_to_rank numeric_cols ↔
      (col ∈ numeric_cols ∧ col ∉ metrics_to_exclude ∧
        strContains "Ended" col = false ∧ strContains "xGoT" col = false) := by
    intro col
    unfold metrics_to_rank
    rw [List.mem_filter]
    simp [List.elem_iff, and_assoc]
  refine ⟨hmem, fun col hcol hrank => ?_⟩
  exact ((hmem col).mp hrank).2.1 hcol

/-- Witness for `metrics_to_rank_spec`: in the two-column numeric
schema `["Goals", "Own Goals"]`, the excluded `Own Goals` is not
rankable while `Goals` is. -/
theorem metrics_to_rank_spec_witness :
    ("Own Goals" ∉ metrics_to_rank ["Goals", "Own Goals"]) ∧
      ("Goals" ∈ metrics_to_rank ["Goals", "Own Goals"]) := by
  have h := metrics_to_rank_spec ["Goals", "Own Goals"]
  exact ⟨h.2 "Own Goals" (by decide),
    (h.1 "Goals").mpr ⟨by decide, by decide, by decide, by decide⟩⟩

/-- C9: `load_data` yields `None` (the caught `FileNotFoundError`)
exactly when the path does not resolve to a readable file; in that
case the session halts cleanly at `st.stop()` rather than crashing;
and whenever a table loads, the downstream filter and aggregation
stages — total functions of the frame and criteria — always produce a
rendered dashboard and cannot fail. -/
theorem load_error_boundary (fs : String → Option DF) (path : String) (c : FilterCriteria) :
    (load_data fs path = none ↔ fs path = none) ∧
    (fs path = none → runSession fs path c = SessionOutcome.halted) ∧
    (∀ df, load_data fs path = some df →
      runSession fs path c
        = SessionOutcome.rendered ⟨filtered_df df c, summaryMetrics (filtered_df df c).rows⟩) := by
  refine ⟨Iff.rfl, ?_, ?_⟩
  · intro h
    unfold runSession load_data
    rw [h]
  · intro df h
    unfold runSession
    rw [h]

/-- Witness for `load_error_boundary`: with no readable files the
session halts; with a readable file it renders the filtered frame and
its metrics. -/
theorem load_error_boundary_witness :
    runSession emptyFS "epl_player_stats_24_25.csv" ⟨["Arsenal"], "All", (0, 3000)⟩
        = SessionOutcome.halted ∧
      runSession constFS "epl_player_stats_24_25.csv" ⟨["Arsenal"], "All", (0, 3000)⟩
        = SessionOutcome.rendered
            ⟨filtered_df ⟨["Club"], sampleRows⟩ ⟨["Arsenal"], "All", (0, 3000)⟩,
             summaryMetrics (filtered_df ⟨["Club"], sampleRows⟩
               ⟨["Arsenal"], "All", (0, 3000)⟩).rows⟩ :=
  ⟨(load_error_boundary emptyFS "epl_player_stats_24_25.csv" _).2.1 rfl,
   (load_error_boundary constFS "epl_player_stats_24_25.csv" _).2.2 _ rfl⟩
